import Mathlib

/-!
Verification of the Tock ADC capsule (`capsules/src/adc.rs`): a shallow
embedding of the dedicated ADC driver (`AdcDedicated`), its three-slot kernel
buffer pool, its sampling state machine, and the virtualized ADC driver
(`AdcVirtualized`), together with theorems about the properties the driver is
expected to satisfy.

Kernel buffers (`&'static mut [u16]`) are modelled by their capacity: a kernel
buffer slot holds a `Nat` (the buffer's `len()`); sample contents are never
inspected by the properties proved here, only lengths and ownership movement.
Process buffers (`ReadWriteProcessBuffer`) are modelled as a pointer plus a
byte length. The grant table is a function from process ids to an optional
per-process record; `none` models a grant entry that cannot be entered
(`NoSuchApp` / `InactiveApp`). The hardware (`hil::adc`) is external to the
capsule, so each hardware call's outcome enters the model as an explicit
parameter of the embedded function.
-/

namespace Tock

/-- Modelled from the spec: the kernel error codes surfaced to callers (§6/§7
of the spec); the kernel's `ErrorCode` definition is outside the sampled
sources. -/
inductive ErrorCode where
  | FAIL
  | BUSY
  | INVAL
  | NOMEM
  | NOSUPPORT
  | NODEVICE
  | OFF
  deriving DecidableEq, Repr

/-- Modelled from the spec: the syscall return encoding (§6); the kernel's
`CommandReturn` is outside the sampled sources. -/
inductive CommandReturn where
  | success
  | success_u32 (v : Nat)
  | failure (e : ErrorCode)
  deriving DecidableEq, Repr

/-- Modelled from the spec: the virtual ADC operation enum (`virtual_adc`
module, outside the sampled sources); the virtualized driver supports only
single-sample requests. -/
inductive Operation where
  | OneSample
  deriving DecidableEq, Repr

/-- ADC modes, used to track internal state and to signify to applications
which state a callback came from (`AdcMode` in `adc.rs`, discriminants
`NoMode = -1`, `SingleSample = 0`, `ContinuousSample = 1`, `SingleBuffer = 2`,
`ContinuousBuffer = 3`). -/
inductive AdcMode where
  | NoMode
  | SingleSample
  | ContinuousSample
  | SingleBuffer
  | ContinuousBuffer
  deriving DecidableEq, Repr

/-- The integer discriminant of an `AdcMode` (`NoMode` is `-1`). -/
def AdcMode.discr : AdcMode → Int
  | .NoMode => -1
  | .SingleSample => 0
  | .ContinuousSample => 1
  | .SingleBuffer => 2
  | .ContinuousBuffer => 3

/-- The `as usize` cast of an `AdcMode` as it is passed in an upcall. The
driver only ever casts one of the four non-negative modes (every cast site is
guarded by a mode check), so the value at `NoMode` is immaterial. -/
def AdcMode.tag (m : AdcMode) : Nat := m.discr.toNat

/-- A kernel DMA buffer slot, modelled by its capacity in samples
(`buf.len()` of the underlying `&'static mut [u16]`). -/
abbrev KBuf := Nat

/-- The three `TakeCell`s `adc_buf1`, `adc_buf2`, `adc_buf3` of
`AdcDedicated`: the kernel buffer pool. `none` models an empty `TakeCell`. -/
structure Pool where
  adc_buf1 : Option KBuf
  adc_buf2 : Option KBuf
  adc_buf3 : Option KBuf
  deriving DecidableEq, Repr

/-- `AdcDedicated::replace_buffer`: store a regained buffer. Replaced buffers
are always inserted in the last position (`adc_buf3`); the previous occupant
of the last position, if any, is promoted into `adc_buf2` if that is empty and
otherwise written into `adc_buf1`. -/
def Pool.replace_buffer (p : Pool) (buf : KBuf) : Pool :=
  match p.adc_buf3 with
  | none => { p with adc_buf3 := some buf }
  | some temp =>
    match p.adc_buf2 with
    | none => { p with adc_buf3 := some buf, adc_buf2 := some temp }
    | some _ => { p with adc_buf3 := some buf, adc_buf1 := some temp }

/-- `AdcDedicated::take_and_map_buffer`: find a buffer to give to the ADC,
searching `adc_buf1`, then `adc_buf2`, then `adc_buf3`. Returns the buffer
handed to the closure (if any) and the pool afterwards. -/
def Pool.take_and_map_buffer (p : Pool) : Option KBuf × Pool :=
  match p.adc_buf1 with
  | some b => (some b, { p with adc_buf1 := none })
  | none =>
    match p.adc_buf2 with
    | some b => (some b, { p with adc_buf2 := none })
    | none =>
      match p.adc_buf3 with
      | some b => (some b, { p with adc_buf3 := none })
      | none => (none, p)

/-- Number of kernel buffer slots currently held in the pool. -/
def Pool.count (p : Pool) : Nat :=
  (if p.adc_buf1.isSome then 1 else 0) +
    (if p.adc_buf2.isSome then 1 else 0) +
    (if p.adc_buf3.isSome then 1 else 0)

/-- Deposit an optional retrieved buffer (`buf.map(|b| self.replace_buffer(b))`
on the results of `retrieve_buffers`). -/
def Pool.depositOpt (p : Pool) (b : Option KBuf) : Pool :=
  match b with
  | none => p
  | some b => p.replace_buffer b

/-- The pool together with the buffers currently on loan to the ADC hardware:
the state over which the pool-rotation invariant is stated. -/
structure PoolSys where
  pool : Pool
  loan : List KBuf
  deriving DecidableEq, Repr

/-- One pool operation, as performed by the driver:
`deposit` is a `replace_buffer` call on a buffer handed back by the hardware;
`withdraw` is a `take_and_map_buffer` call whose found buffer is loaned to the
hardware; `withdrawPair` is the pair of direct `adc_buf1.take()` /
`adc_buf2.take()` calls performed by `sample_buffer` and
`sample_buffer_continuous` when starting a buffered operation. -/
inductive PoolOp where
  | deposit
  | withdraw
  | withdrawPair
  deriving DecidableEq, Repr

/-- Effect of one pool operation on the pool-plus-loan state. A `deposit`
with nothing on loan is a no-op (the driver has no buffer to deposit). In
`withdrawPair`, faithfully to the source, if `adc_buf1` holds a buffer but
`adc_buf2` does not, the first buffer is taken and then dropped by the failing
closure (it reaches neither the pool nor the hardware). -/
def PoolSys.step (s : PoolSys) : PoolOp → PoolSys
  | .deposit =>
    match s.loan with
    | [] => s
    | b :: rest => { pool := s.pool.replace_buffer b, loan := rest }
  | .withdraw =>
    match s.pool.take_and_map_buffer with
    | (none, p) => { s with pool := p }
    | (some b, p) => { pool := p, loan := b :: s.loan }
  | .withdrawPair =>
    match s.pool.adc_buf1 with
    | none => s
    | some b1 =>
      let p1 : Pool := { s.pool with adc_buf1 := none }
      match p1.adc_buf2 with
      | none => { s with pool := p1 }
      | some b2 =>
        { pool := { p1 with adc_buf2 := none }, loan := b2 :: b1 :: s.loan }

/-- Run a sequence of pool operations. -/
def PoolSys.exec (s : PoolSys) (ops : List PoolOp) : PoolSys :=
  ops.foldl PoolSys.step s

/-- The pool state as constructed by `AdcDedicated::new`: all three buffers in
the pool, nothing on loan. -/
def PoolSys.init (c1 c2 c3 : KBuf) : PoolSys :=
  { pool := { adc_buf1 := some c1, adc_buf2 := some c2, adc_buf3 := some c3 },
    loan := [] }

/-- The occupied pool positions are contiguous from the last position: if
`adc_buf1` is occupied so is `adc_buf2`, and if `adc_buf2` is occupied so is
`adc_buf3`. This shape is established by `new` and preserved by every pool
operation. -/
def Pool.shaped (p : Pool) : Prop :=
  (p.adc_buf1.isSome → p.adc_buf2.isSome) ∧ (p.adc_buf2.isSome → p.adc_buf3.isSome)

instance (p : Pool) : Decidable p.shaped := by
  unfold Pool.shaped; infer_instance

/-- The pool-system invariant: the slots in the pool plus the slots on loan
number three, and the pool is shaped. -/
def PoolSys.inv (s : PoolSys) : Prop :=
  s.pool.count + s.loan.length = 3 ∧ s.pool.shaped

/-- A caller-supplied process buffer (`ReadWriteProcessBuffer`): a pointer and
a byte length. The default (no buffer allowed yet) has length zero. -/
structure AppBuffer where
  ptr : Nat
  len : Nat
  deriving DecidableEq, Repr

instance : Inhabited AppBuffer := ⟨⟨0, 0⟩⟩

/-- The per-process grant record `App` of the dedicated driver. -/
structure App where
  app_buf1 : AppBuffer
  app_buf2 : AppBuffer
  app_buf_offset : Nat
  samples_remaining : Nat
  samples_outstanding : Nat
  next_samples_outstanding : Nat
  using_app_buf1 : Bool
  deriving DecidableEq, Repr

/-- `App::default()`: zero-initialized, `using_app_buf1` true. -/
def App.default : App :=
  { app_buf1 := ⟨0, 0⟩, app_buf2 := ⟨0, 0⟩, app_buf_offset := 0,
    samples_remaining := 0, samples_outstanding := 0,
    next_samples_outstanding := 0, using_app_buf1 := true }

/-- Point update of a grant table. -/
def updGrant {α : Type} (g : Nat → Option α) (i : Nat) (a : α) :
    Nat → Option α :=
  fun j => if j = i then some a else g j

/-- The state of an `AdcDedicated` driver. `apps` is the grant table:
`apps i = none` models a grant entry that cannot be entered (the process no
longer exists or is inactive). `numChannels`, `resolutionBits` and
`voltageRef` are the fixed hardware attributes consulted by the metadata
commands. -/
structure DedState where
  numChannels : Nat
  resolutionBits : Nat
  voltageRef : Option Nat
  active : Bool
  mode : AdcMode
  appid : Option Nat
  channel : Nat
  pool : Pool
  apps : Nat → Option App

/-- Modelled from the spec: the kernel's conversion of a grant-entry error
(`kernel::procs::Error`) into an `ErrorCode` lives outside the sampled
sources; §7 of the spec classes process-context-entry failures as internal
failures, surfaced through the generic fail code when they must be encoded. -/
def grantErrorCode : ErrorCode := .FAIL

/-- The `match_or_empty_or_nonexistant` ownership test of
`AdcDedicated::command` and `AdcDedicated::allow_readwrite`: the caller may
use the driver if no owner is recorded, if it is the recorded owner, or if
the driver is not active and the recorded owner's grant can no longer be
entered. -/
def okToUse (s : DedState) (appid : Nat) : Bool :=
  match s.appid with
  | none => true
  | some owning_app =>
    if s.active then owning_app == appid
    else
      match s.apps owning_app with
      | some _ => owning_app == appid
      | none => true

/-- `AdcDedicated::sample`: collect a single analog sample on a channel.
`hwRes` is the outcome of the external `adc.sample(chan)` call (`none` means
the hardware accepted the request). -/
def sample (s : DedState) (channel : Nat) (hwRes : Option ErrorCode) :
    Except ErrorCode Unit × DedState :=
  if s.active then (.error .BUSY, s)
  else if s.numChannels ≤ channel then (.error .INVAL, s)
  else
    let s1 := { s with active := true, mode := AdcMode.SingleSample,
                       channel := channel }
    match hwRes with
    | none => (.ok (), s1)
    | some e => (.error e, { s1 with active := false, mode := AdcMode.NoMode })

/-- `AdcDedicated::sample_continuous`: collect repeated single samples.
`hwRes` is the outcome of `adc.sample_continuous`. -/
def sample_continuous (s : DedState) (channel : Nat) (_frequency : Nat)
    (hwRes : Option ErrorCode) : Except ErrorCode Unit × DedState :=
  if s.active then (.error .BUSY, s)
  else if s.numChannels ≤ channel then (.error .INVAL, s)
  else
    let s1 := { s with active := true, mode := AdcMode.ContinuousSample,
                       channel := channel }
    match hwRes with
    | none => (.ok (), s1)
    | some e => (.error e, { s1 with active := false, mode := AdcMode.NoMode })

/-- The request-length split computed at the start of
`AdcDedicated::sample_buffer` (lines 371–383 of `adc.rs`): how many samples
to request into each of the two kernel buffers, given the caller buffer's
byte length and the two kernel buffers' capacities. -/
def single_buffer_request_lens (app_buf_length buf1_len buf2_len : Nat) :
    Nat × Nat :=
  let request_len := app_buf_length / 2
  if request_len ≤ buf1_len then (app_buf_length / 2, 0)
  else if request_len ≤ buf1_len + buf2_len then
    (buf1_len, request_len - buf1_len)
  else (buf1_len, buf2_len)

/-- The request-length and counter split computed at the start of
`AdcDedicated::sample_buffer_continuous` (lines 493–521 of `adc.rs`).
Returns `(len1, len2, samples_remaining, samples_outstanding)`. -/
def continuous_buffer_request_lens
    (app_buf_length next_app_buf_length buf1_len buf2_len : Nat) :
    Nat × Nat × Nat × Nat :=
  let samples_needed := app_buf_length / 2
  let next_samples_needed := next_app_buf_length / 2
  if samples_needed ≤ buf1_len then
    -- the entire caller-buffer request fits in the first kernel buffer; the
    -- second kernel buffer is used for the next caller buffer
    let len1 := samples_needed
    let len2 := min next_samples_needed buf2_len
    (len1, len2, 0, len1)
  else if samples_needed ≤ buf1_len + buf2_len then
    -- the request fits between the two kernel buffers
    let len1 := buf1_len
    let len2 := samples_needed - buf1_len
    (len1, len2, 0, len1 + len2)
  else
    -- the caller buffer is larger than both kernel buffers
    let len1 := buf1_len
    let len2 := buf2_len
    (len1, len2, samples_needed - len1 - len2, len1 + len2)

/-- The `ret != Ok(())` cleanup shared by `sample_buffer` and
`sample_buffer_continuous`: clear `active` and `mode`, and reset the owning
app's counters to zero (clearing the cached owner if its grant can no longer
be entered). -/
def bufferStartFail (s : DedState) (e : ErrorCode) :
    Except ErrorCode Unit × DedState :=
  let s1 := { s with active := false, mode := AdcMode.NoMode }
  match s1.appid with
  | none => (.error e, s1)
  | some id =>
    match s1.apps id with
    | none => (.error e, { s1 with appid := none })
    | some app =>
      let app' := { app with samples_remaining := 0, samples_outstanding := 0 }
      (.error e, { s1 with apps := updGrant s1.apps id app' })

/-- `AdcDedicated::sample_buffer`: collect a buffer-full of analog samples
into the first caller buffer. `hwRes` is the outcome of the external
`adc.sample_highspeed` call; on rejection the hardware hands both kernel
buffers back and they are deposited through `replace_buffer`. -/
def sample_buffer (s : DedState) (channel : Nat) (_frequency : Nat)
    (hwRes : Option ErrorCode) : Except ErrorCode Unit × DedState :=
  if s.active then (.error .BUSY, s)
  else if s.numChannels ≤ channel then (.error .INVAL, s)
  else
    match s.appid with
    | none => (.error .NOMEM, s)
    | some id =>
      match s.apps id with
      | none => (.error .NOMEM, { s with appid := none })
      | some app0 =>
        let app_buf_length := app0.app_buf1.len
        if app_buf_length = 0 then (.error .NOMEM, s)
        else
          let s1 := { s with active := true, mode := AdcMode.SingleBuffer }
          let app1 := { app0 with app_buf_offset := 0 }
          let s2 := { s1 with apps := updGrant s1.apps id app1,
                              channel := channel }
          match s2.pool.adc_buf1 with
          | none => bufferStartFail s2 .BUSY
          | some buf1 =>
            let p1 := { s2.pool with adc_buf1 := none }
            match p1.adc_buf2 with
            | none =>
              -- `adc_buf1` was taken but `adc_buf2` is empty: the inner
              -- closure fails with `BUSY` and drops `buf1`
              bufferStartFail { s2 with pool := p1 } .BUSY
            | some buf2 =>
              let p2 := { p1 with adc_buf2 := none }
              let lens := single_buffer_request_lens app_buf_length buf1 buf2
              let request_len := app_buf_length / 2
              let app2 := { app1 with
                using_app_buf1 := true,
                samples_remaining := request_len - lens.1 - lens.2,
                samples_outstanding := lens.1 + lens.2 }
              let s3 := { s2 with pool := p2, apps := updGrant s2.apps id app2 }
              match hwRes with
              | none => (.ok (), s3)
              | some e =>
                bufferStartFail
                  { s3 with
                    pool := (s3.pool.replace_buffer buf1).replace_buffer buf2 }
                  e

/-- `AdcDedicated::sample_buffer_continuous`: collect samples continuously,
filling the two caller buffers alternately. `hwRes` as in `sample_buffer`. -/
def sample_buffer_continuous (s : DedState) (channel : Nat) (_frequency : Nat)
    (hwRes : Option ErrorCode) : Except ErrorCode Unit × DedState :=
  if s.active then (.error .BUSY, s)
  else if s.numChannels ≤ channel then (.error .INVAL, s)
  else
    match s.appid with
    | none => (.error .NOMEM, s)
    | some id =>
      match s.apps id with
      | none => (.error .NOMEM, { s with appid := none })
      | some app0 =>
        let app_buf_length := app0.app_buf1.len
        let next_app_buf_length := app0.app_buf2.len
        if app_buf_length = 0 ∨ next_app_buf_length = 0 then
          (.error .NOMEM, s)
        else
          let s1 := { s with active := true, mode := AdcMode.ContinuousBuffer }
          let app1 := { app0 with app_buf_offset := 0 }
          let s2 := { s1 with apps := updGrant s1.apps id app1,
                              channel := channel }
          match s2.pool.adc_buf1 with
          | none => bufferStartFail s2 .BUSY
          | some buf1 =>
            let p1 := { s2.pool with adc_buf1 := none }
            match p1.adc_buf2 with
            | none =>
              bufferStartFail { s2 with pool := p1 } .BUSY
            | some buf2 =>
              let p2 := { p1 with adc_buf2 := none }
              let lens := continuous_buffer_request_lens app_buf_length
                next_app_buf_length buf1 buf2
              let app2 := { app1 with
                samples_remaining := lens.2.2.1,
                samples_outstanding := lens.2.2.2,
                using_app_buf1 := true }
              let s3 := { s2 with pool := p2, apps := updGrant s2.apps id app2 }
              match hwRes with
              | none => (.ok (), s3)
              | some e =>
                bufferStartFail
                  { s3 with
                    pool := (s3.pool.replace_buffer buf1).replace_buffer buf2 }
                  e

/-- `AdcDedicated::stop_sampling`: cancel any active operation. `stopRes` is
the outcome of the external `adc.stop_sampling` call, `retrieveRes` of
`adc.retrieve_buffers` (on success, zero, one or two kernel buffers come back
and are deposited). -/
def stop_sampling (s : DedState) (stopRes : Option ErrorCode)
    (retrieveRes : Except ErrorCode (Option KBuf × Option KBuf)) :
    Except ErrorCode Unit × DedState :=
  if s.active = false ∨ s.mode = AdcMode.NoMode then (.ok (), s)
  else
    match s.appid with
    | none => (.error .FAIL, s)
    | some id =>
      match s.apps id with
      | none => (.error .FAIL, { s with appid := none })
      | some app =>
        let app' := { app with app_buf_offset := 0 }
        let s1 := { s with
                    active := false,
                    mode := AdcMode.NoMode,
                    apps := updGrant s.apps id app' }
        match stopRes with
        | some e => (.error e, s1)
        | none =>
          match retrieveRes with
          | .ok (b1, b2) =>
            (.ok (), { s1 with pool := (s1.pool.depositOpt b1).depositOpt b2 })
          | .error e => (.error e, s1)

/-- Outcomes of the external hardware calls a single syscall may make. -/
structure HwOracle where
  sampleRes : Option ErrorCode
  stopRes : Option ErrorCode
  retrieveRes : Except ErrorCode (Option KBuf × Option KBuf)

/-- Encode a `Result<(), ErrorCode>` as a `CommandReturn`, as the `command`
match arms do. -/
def liftResult : Except ErrorCode Unit × DedState → CommandReturn × DedState
  | (.ok _, s) => (.success, s)
  | (.error e, s) => (.failure e, s)

/-- The command dispatch of `AdcDedicated::command` after the ownership guard
has admitted the caller and recorded it as owner. -/
def dispatchCommand (s : DedState) (command_num channel frequency : Nat)
    (hw : HwOracle) : CommandReturn × DedState :=
  match command_num with
  | 0 => (.success_u32 s.numChannels, s)
  | 1 => liftResult (sample s channel hw.sampleRes)
  | 2 => liftResult (sample_continuous s channel frequency hw.sampleRes)
  | 3 => liftResult (sample_buffer s channel frequency hw.sampleRes)
  | 4 => liftResult (sample_buffer_continuous s channel frequency hw.sampleRes)
  | 5 => liftResult (stop_sampling s hw.stopRes hw.retrieveRes)
  | 101 => (.success_u32 s.resolutionBits, s)
  | 102 =>
    match s.voltageRef with
    | some v => (.success_u32 v, s)
    | none => (.failure .NOSUPPORT, s)
  | _ => (.failure .NOSUPPORT, s)

/-- `AdcDedicated::command` (the `Driver` impl): ownership guard, then
command dispatch. -/
def command (s : DedState) (command_num channel frequency : Nat) (appid : Nat)
    (hw : HwOracle) : CommandReturn × DedState :=
  if okToUse s appid then
    dispatchCommand { s with appid := some appid } command_num channel
      frequency hw
  else (.failure .NOMEM, s)

/-- The allow-number dispatch of `AdcDedicated::allow_readwrite` after the
ownership guard has admitted the caller and recorded it as owner: swap the
caller's buffer handle into the grant slot named by `allow_num`. On success
the previously registered handle is returned; when the grant cannot be
entered the handle just passed in is returned with the error; an unknown
`allow_num` returns the handle with `NOSUPPORT`. -/
def dispatchAllow (s : DedState) (appid : Nat) (allow_num : Nat)
    (slice : AppBuffer) :
    Except (AppBuffer × ErrorCode) AppBuffer × DedState :=
  match allow_num with
  | 0 =>
    match s.apps appid with
    | none => (.error (slice, grantErrorCode), { s with appid := none })
    | some app =>
      let app' := { app with app_buf1 := slice }
      (.ok app.app_buf1, { s with apps := updGrant s.apps appid app' })
  | 1 =>
    match s.apps appid with
    | none => (.error (slice, grantErrorCode), { s with appid := none })
    | some app =>
      let app' := { app with app_buf2 := slice }
      (.ok app.app_buf2, { s with apps := updGrant s.apps appid app' })
  | _ => (.error (slice, .NOSUPPORT), s)

/-- `AdcDedicated::allow_readwrite` (the `Driver` impl): ownership guard,
then allow-number dispatch. -/
def allow_readwrite (s : DedState) (appid : Nat) (allow_num : Nat)
    (slice : AppBuffer) :
    Except (AppBuffer × ErrorCode) AppBuffer × DedState :=
  if okToUse s appid then
    dispatchAllow { s with appid := some appid } appid allow_num slice
  else (.error (slice, .NOMEM), s)

/-- An upcall delivered to a process: the three arguments passed to
`schedule_upcall(0, _, _, _)`. -/
structure Upcall where
  tag : Nat
  arg2 : Nat
  arg3 : Nat
  deriving DecidableEq, Repr

/-- The "operation probably canceled / app crashed" cleanup of the callback
handlers: clear `active` and `mode`, zero the owner's buffer offset when its
grant is still enterable (clearing the owner record when it is not), stop
hardware sampling, and redeposit whatever buffers `retrieve_buffers` hands
back. No upcall is delivered. -/
def unexpectedCleanup (s : DedState)
    (retrieveRes : Except ErrorCode (Option KBuf × Option KBuf)) :
    DedState × Option Upcall :=
  let s1 := { s with active := false, mode := AdcMode.NoMode }
  let s2 :=
    match s1.appid with
    | none => s1
    | some id =>
      match s1.apps id with
      | none => { s1 with appid := none }
      | some app =>
        let app' := { app with app_buf_offset := 0 }
        { s1 with apps := updGrant s1.apps id app' }
  match retrieveRes with
  | .ok (b1, b2) =>
    ({ s2 with pool := (s2.pool.depositOpt b1).depositOpt b2 }, none)
  | .error _ => (s2, none)

/-- `AdcDedicated::sample_ready` (the `hil::adc::Client` impl): a single
scalar sample is ready. Returns the new state and the upcall delivered, if
any. -/
def sample_ready (s : DedState) (sample : Nat) : DedState × Option Upcall :=
  if s.active = true ∧ s.mode = AdcMode.SingleSample then
    let s1 := { s with active := false, mode := AdcMode.NoMode }
    match s1.appid with
    | none =>
      -- no owner recorded: no callback was delivered, so the handler treats
      -- the operation as canceled (state is already cleared)
      (s1, none)
    | some id =>
      match s1.apps id with
      | none => ({ s1 with appid := none }, none)
      | some _ => (s1, some ⟨AdcMode.SingleSample.tag, s1.channel, sample⟩)
  else if s.active = true ∧ s.mode = AdcMode.ContinuousSample then
    match s.appid with
    | none => ({ s with active := false, mode := AdcMode.NoMode }, none)
    | some id =>
      match s.apps id with
      | none =>
        ({ s with active := false, mode := AdcMode.NoMode, appid := none },
          none)
      | some _ => (s, some ⟨AdcMode.ContinuousSample.tag, s.channel, sample⟩)
  else ({ s with active := false, mode := AdcMode.NoMode }, none)

/-- The request-placing middle section of `AdcDedicated::samples_ready`
(lines 811–939 of `adc.rs`): starting from the app record whose
`samples_outstanding` has already been decremented by the delivered count,
decide whether the filled caller buffer is complete (`perform_callback`),
switch caller buffers in continuous mode, and place at most one further
buffer request with the ADC. `app_buf_ref` / `next_app_buf` are the caller
buffers as selected by `using_app_buf1` on entry. Returns the updated app
record, the updated pool, and `perform_callback`. -/
def samples_ready_requests (mode : AdcMode) (pool : Pool) (app : App)
    (app_buf_ref next_app_buf : AppBuffer) (provideOk : Bool) :
    App × Pool × Bool :=
  if app.samples_remaining = 0 then
    if app.samples_outstanding = 0 then
      if mode = AdcMode.ContinuousBuffer then
        -- switch to the next app buffer, accounting for the request already
        -- outstanding for it
        let samples_needed := next_app_buf.len / 2
        let appB := { app with
          samples_remaining := samples_needed - app.next_samples_outstanding,
          samples_outstanding := app.next_samples_outstanding,
          using_app_buf1 := !app.using_app_buf1 }
        if appB.samples_remaining = 0 then
          -- the outstanding request already completed the next app buffer:
          -- request for the next next one (= `app_buf_ref`)
          match pool.take_and_map_buffer with
          | (none, p) => (appB, p, true)
          | (some adc_buf, p) =>
            let samples_needed2 := app_buf_ref.len / 2
            let request_len := min samples_needed2 adc_buf
            let appC := { appB with next_samples_outstanding := request_len }
            if provideOk then (appC, p, true)
            else (appC, p.replace_buffer adc_buf, true)
        else
          -- more samples still needed for the next app buffer
          match pool.take_and_map_buffer with
          | (none, p) => (appB, p, true)
          | (some adc_buf, p) =>
            let request_len := min appB.samples_remaining adc_buf
            let appC := { appB with
              samples_remaining := appB.samples_remaining - request_len,
              samples_outstanding := appB.samples_outstanding + request_len }
            if provideOk then (appC, p, true)
            else (appC, p.replace_buffer adc_buf, true)
      else (app, pool, true)
    else
      -- outstanding samples remain for the current app buffer
      if mode = AdcMode.ContinuousBuffer then
        -- start the first request for the next app buffer
        match pool.take_and_map_buffer with
        | (none, p) => (app, p, false)
        | (some adc_buf, p) =>
          let samples_needed := next_app_buf.len / 2
          let request_len := min samples_needed adc_buf
          let appB := { app with next_samples_outstanding := request_len }
          if provideOk then (appB, p, false)
          else (appB, p.replace_buffer adc_buf, false)
      else (app, pool, false)
  else
    -- more samples needed for the current app buffer
    match pool.take_and_map_buffer with
    | (none, p) => (app, p, false)
    | (some adc_buf, p) =>
      let request_len := min app.samples_remaining adc_buf
      let appB := { app with
        samples_remaining := app.samples_remaining - request_len,
        samples_outstanding := app.samples_outstanding + request_len }
      if provideOk then (appB, p, false)
      else (appB, p.replace_buffer adc_buf, false)

/-- `AdcDedicated::samples_ready` (the `hil::adc::HighSpeedClient` impl): a
kernel buffer filled with `length` samples comes back from the hardware. The
returned buffer is first unconditionally redeposited via `replace_buffer`.
`provideOk` is the outcome of the (at most one) external
`adc.provide_buffer` call made on this path (on rejection the buffer is
handed back and redeposited); `retrieveRes` is the outcome of
`adc.retrieve_buffers` where that call is made. Returns the new state and
the upcall delivered, if any. -/
def samples_ready (s : DedState) (buf : KBuf) (length : Nat)
    (provideOk : Bool)
    (retrieveRes : Except ErrorCode (Option KBuf × Option KBuf)) :
    DedState × Option Upcall :=
  let s0 := { s with pool := s.pool.replace_buffer buf }
  if s0.active = true ∧
      (s0.mode = AdcMode.SingleBuffer ∨ s0.mode = AdcMode.ContinuousBuffer) then
    match s0.appid with
    | none => (s0, none)
    | some id =>
      match s0.apps id with
      | none => unexpectedCleanup { s0 with appid := none } retrieveRes
      | some app0 =>
        let use1 := app0.using_app_buf1
        let app_buf_ref := if use1 then app0.app_buf1 else app0.app_buf2
        let next_app_buf := if use1 then app0.app_buf2 else app0.app_buf1
        -- update count of outstanding sample requests
        let appA :=
          { app0 with
            samples_outstanding := app0.samples_outstanding - length }
        -- provide a new buffer / length request to the ADC if necessary
        let step :=
          samples_ready_requests s0.mode s0.pool appA app_buf_ref
            next_app_buf provideOk
        -- samples are copied into the app buffer (contents are not modelled)
        -- and the byte offset advances by two bytes per sample
        let appD :=
          { step.1 with app_buf_offset := step.1.app_buf_offset + length * 2 }
        let pool1 := step.2.1
        let perform_callback := step.2.2
        let buf_ptr := if use1 then appD.app_buf1.ptr else appD.app_buf2.ptr
        let buf_len := if use1 then appD.app_buf1.len else appD.app_buf2.len
        if perform_callback then
          let up : Upcall :=
            ⟨s0.mode.tag, ((buf_len / 2) <<< 8) ||| (s0.channel &&& 0xFF),
              buf_ptr⟩
          let appE := { appD with app_buf_offset := 0 }
          if s0.mode = AdcMode.SingleBuffer then
            let s1 := { s0 with
                        active := false,
                        mode := AdcMode.NoMode,
                        pool := pool1,
                        apps := updGrant s0.apps id appE }
            match retrieveRes with
            | .ok (b1, b2) =>
              ({ s1 with pool := (s1.pool.depositOpt b1).depositOpt b2 },
                some up)
            | .error _ => (s1, some up)
          else
            ({ s0 with pool := pool1, apps := updGrant s0.apps id appE },
              some up)
        else
          ({ s0 with pool := pool1, apps := updGrant s0.apps id appD }, none)
  else unexpectedCleanup s0 retrieveRes

/-- The per-process grant record `AppSys` of the virtualized driver. -/
structure AppSys where
  pending_command : Bool
  command : Option Operation
  channel : Nat
  deriving DecidableEq, Repr

/-- `AppSys::default()`. -/
def AppSys.default : AppSys :=
  { pending_command := false, command := none, channel := 0 }

/-- The state of an `AdcVirtualized` driver: the number of wrapped
single-sample channels, the process whose request is currently in flight,
and the grant table. -/
structure VirtState where
  numDrivers : Nat
  current_app : Option Nat
  apps : Nat → Option AppSys

namespace AdcVirtualized

/-- `AdcVirtualized::enqueue_command`: dispatch now if no request is in
flight (binding the caller as in-flight owner), otherwise queue at most one
pending request in the caller's own grant. `hwRes` is the outcome of the
external `call_driver` dispatch. -/
def enqueue_command (s : VirtState) (cmd : Operation) (channel : Nat)
    (appid : Nat) (hwRes : Option ErrorCode) :
    Except ErrorCode Unit × VirtState :=
  if channel < s.numDrivers then
    match s.apps appid with
    | none => (.error grantErrorCode, s)
    | some app =>
      match s.current_app with
      | none =>
        match hwRes with
        | none => (.ok (), { s with current_app := some appid })
        | some e => (.error e, { s with current_app := none })
      | some _ =>
        if app.pending_command then (.error .BUSY, s)
        else
          let app' : AppSys :=
            { pending_command := true, command := some cmd,
              channel := channel }
          (.ok (), { s with apps := updGrant s.apps appid app' })
  else (.error .NODEVICE, s)

/-- `AdcVirtualized`'s `hil::adc::Client::sample_ready`: the in-flight owner
is unbound, its `pending_command` flag is reset, and a single-sample upcall
is delivered to it. Returns the new state and the delivered upcall tagged
with its target process. -/
def sample_ready (s : VirtState) (sample : Nat) :
    VirtState × Option (Nat × Upcall) :=
  match s.current_app with
  | none => (s, none)
  | some appid =>
    let s1 := { s with current_app := none }
    match s1.apps appid with
    | none => (s1, none)
    | some app =>
      let app' := { app with pending_command := false }
      ({ s1 with apps := updGrant s1.apps appid app' },
        some (appid, ⟨AdcMode.SingleSample.tag, app.channel, sample⟩))

end AdcVirtualized

/-! ### Concrete fixtures used by witnesses and concrete-case theorems -/

/-- A dedicated-driver state with a full pool of three 128-sample kernel
buffers, owned by process 0 whose primary caller buffer has byte length
`len` and whose secondary caller buffer has byte length 300. -/
def splitTestState (len : Nat) : DedState :=
  { numChannels := 6, resolutionBits := 12, voltageRef := some 3300,
    active := false, mode := .NoMode, appid := some 0, channel := 0,
    pool := ⟨some 128, some 128, some 128⟩,
    apps := fun i => if i = 0 then
      some { App.default with app_buf1 := ⟨4096, len⟩, app_buf2 := ⟨8192, 300⟩ }
      else none }

/-- `splitTestState 256` with a hardware operation in progress. -/
def busyTestState : DedState :=
  { splitTestState 256 with active := true, mode := .ContinuousSample }

/-- After a failed buffered-sample start against state `s`, owned by `id`:
hardware idle, mode cleared, the pool holds as many slots as before the
call, and the owner's counters are zero. -/
def unwound (s s' : DedState) (id : Nat) : Prop :=
  s'.active = false ∧ s'.mode = AdcMode.NoMode ∧
  s'.pool.count = s.pool.count ∧
  ∃ app', s'.apps id = some app' ∧
    app'.samples_remaining = 0 ∧ app'.samples_outstanding = 0

/-- A virtualized-driver state with four channels: process 0's request is in
flight and it has a pending request queued; process 1 is idle. -/
def virtTestState : VirtState :=
  { numDrivers := 4, current_app := some 0,
    apps := fun i =>
      if i = 0 then
        some { pending_command := true, command := some .OneSample,
               channel := 1 }
      else if i = 1 then some AppSys.default else none }

def scalarUpcallState : DedState :=
  { splitTestState 256 with
    active := true,
    mode := .SingleSample,
    channel := 3 }

def bufferUpcallState : DedState :=
  { splitTestState 256 with
    active := true,
    mode := .SingleBuffer,
    channel := 3,
    pool := ⟨none, none, some 128⟩,
    apps := fun i => if i = 0 then
      some { App.default with
        app_buf1 := ⟨4096, 256⟩, samples_outstanding := 128 }
      else none }

/-! ### Claim theorems -/

@[simp]
theorem updGrant_same {α : Type} (g : Nat → Option α) (i : Nat) (a : α) :
    updGrant g i a i = some a := by
  simp [updGrant]

@[simp]
theorem updGrant_other {α : Type} (g : Nat → Option α) (i j : Nat) (a : α)
    (h : j ≠ i) : updGrant g i a j = g j := by
  simp [updGrant, h]

theorem PoolSys.inv_init (c1 c2 c3 : KBuf) : (PoolSys.init c1 c2 c3).inv := by
  constructor <;> simp [PoolSys.init, Pool.count, Pool.shaped]

theorem PoolSys.inv_step (s : PoolSys) (op : PoolOp) (h : s.inv) :
    (s.step op).inv := by
  obtain ⟨⟨b1, b2, b3⟩, loan⟩ := s
  obtain ⟨hcount, hsh1, hsh2⟩ := h
  cases op <;> cases b1 <;> cases b2 <;> cases b3 <;> cases loan <;>
    simp_all [PoolSys.step, PoolSys.inv, Pool.replace_buffer,
      Pool.take_and_map_buffer, Pool.count, Pool.shaped] <;>
    first
      | omega
      | (rw [← List.length_eq_zero]; omega)

theorem PoolSys.inv_exec (s : PoolSys) (ops : List PoolOp) (h : s.inv) :
    (s.exec ops).inv := by
  induction ops generalizing s with
  | nil => simpa [PoolSys.exec] using h
  | cons op rest ih =>
    have := ih (s.step op) (PoolSys.inv_step s op h)
    simpa [PoolSys.exec, List.foldl] using this


/-- C1: for every sequence of buffer-pool operations (deposits via
`replace_buffer` and withdrawals via `take_and_map_buffer`, including the
paired direct withdrawals performed by the sampling paths), starting from
the full pool built at construction, at every point where no call is in
progress the number of kernel buffer slots held in the pool's three
positions plus the number of slots on loan to the hardware equals 3. -/
theorem pool_slot_conservation (c1 c2 c3 : KBuf) (ops : List PoolOp) :
    ((PoolSys.init c1 c2 c3).exec ops).pool.count +
      ((PoolSys.init c1 c2 c3).exec ops).loan.length = 3 :=
  (PoolSys.inv_exec _ ops (PoolSys.inv_init c1 c2 c3)).1

/-- C5: the single-buffer request split of `sample_buffer`, with two
128-sample kernel slots: a 256-byte caller buffer yields `len1 = 128`,
`len2 = 0`, `samples_remaining = 0`; a 512-byte caller buffer yields
`len1 = 128`, `len2 = 128`, `samples_remaining = 0`; a 1024-byte caller
buffer yields `len1 = 128`, `len2 = 128`, `samples_remaining = 256`; in
each case `samples_outstanding` is set to `len1 + len2`. -/
theorem single_buffer_split_cases :
    single_buffer_request_lens 256 128 128 = (128, 0) ∧
    single_buffer_request_lens 512 128 128 = (128, 128) ∧
    single_buffer_request_lens 1024 128 128 = (128, 128) ∧
    ((sample_buffer (splitTestState 256) 2 175000 none).2.apps 0).map
        (fun a => (a.samples_remaining, a.samples_outstanding)) =
      some (0, 128 + 0) ∧
    ((sample_buffer (splitTestState 512) 2 175000 none).2.apps 0).map
        (fun a => (a.samples_remaining, a.samples_outstanding)) =
      some (0, 128 + 128) ∧
    ((sample_buffer (splitTestState 1024) 2 175000 none).2.apps 0).map
        (fun a => (a.samples_remaining, a.samples_outstanding)) =
      some (256, 128 + 128) :=
  ⟨rfl, rfl, rfl, rfl, rfl, rfl⟩

/-- C3: calling `sample_buffer` or `sample_buffer_continuous` while `active`
is true fails with `BUSY` and leaves the entire driver state — in particular
the mode, the three sample counters, and the app buffer offset — unchanged. -/
theorem busy_guard (s : DedState) (channel frequency : Nat)
    (hwRes : Option ErrorCode) (h : s.active = true) :
    sample_buffer s channel frequency hwRes = (.error .BUSY, s) ∧
    sample_buffer_continuous s channel frequency hwRes = (.error .BUSY, s) := by
  constructor <;> simp [sample_buffer, sample_buffer_continuous, h]

theorem busy_guard_witness :
    sample_buffer busyTestState 2 175000 none =
      (.error .BUSY, busyTestState) ∧
    sample_buffer_continuous busyTestState 2 175000 none =
      (.error .BUSY, busyTestState) :=
  busy_guard busyTestState 2 175000 none rfl

/-- C6: when the registered primary caller buffer is empty (the default,
unregistered buffer has length zero) — or no owner is recorded at all —
`sample_buffer` fails with `NOMEM` without starting an operation, and
`sample_buffer_continuous` fails with `NOMEM` unless both caller buffers are
non-empty. -/
theorem empty_buffer_nomem (s : DedState) (channel frequency : Nat)
    (hwRes : Option ErrorCode) (hactive : s.active = false)
    (hch : channel < s.numChannels) :
    (s.appid = none →
      sample_buffer s channel frequency hwRes = (.error .NOMEM, s) ∧
      sample_buffer_continuous s channel frequency hwRes =
        (.error .NOMEM, s)) ∧
    (∀ id app, s.appid = some id → s.apps id = some app →
      app.app_buf1.len = 0 →
      sample_buffer s channel frequency hwRes = (.error .NOMEM, s)) ∧
    (∀ id app, s.appid = some id → s.apps id = some app →
      app.app_buf1.len = 0 ∨ app.app_buf2.len = 0 →
      sample_buffer_continuous s channel frequency hwRes =
        (.error .NOMEM, s)) := by
  have hch' : ¬ s.numChannels ≤ channel := Nat.not_le.mpr hch
  refine ⟨fun hn => ?_, fun id app hid happ hlen => ?_,
    fun id app hid happ hlen => ?_⟩
  · constructor <;>
      simp [sample_buffer, sample_buffer_continuous, hactive, hch', hn]
  · simp [sample_buffer, hactive, hch', hid, happ, hlen]
  · rcases hlen with h1 | h2
    · simp [sample_buffer_continuous, hactive, hch', hid, happ, h1]
    · simp [sample_buffer_continuous, hactive, hch', hid, happ, h2]

theorem empty_buffer_nomem_witness :
    sample_buffer (splitTestState 0) 2 175000 none =
      (.error .NOMEM, splitTestState 0) :=
  (empty_buffer_nomem (splitTestState 0) 2 175000 none rfl (by decide)).2.1
    0 _ rfl rfl rfl

/-- C4: on every syscall into the dedicated dispatcher (`command` or
`allow_readwrite`) from process `p`: `p` is admitted exactly when no owner is
recorded, or the recorded owner is `p`, or the recorded owner's grant can no
longer be entered and no hardware operation is active; an admitted caller is
recorded as owner before the call is dispatched, and a rejected caller gets
the `NOMEM` failure with the driver state untouched. -/
theorem ownership_guard (s : DedState) (p : Nat) :
    (okToUse s p = true ↔
      (s.appid = none ∨ s.appid = some p ∨
        (∃ q, s.appid = some q ∧ s.apps q = none ∧ s.active = false))) ∧
    (∀ n ch f hw, okToUse s p = false →
      command s n ch f p hw = (.failure .NOMEM, s)) ∧
    (∀ n ch f hw, okToUse s p = true →
      command s n ch f p hw =
        dispatchCommand { s with appid := some p } n ch f hw) ∧
    (∀ an sl, okToUse s p = false →
      allow_readwrite s p an sl = (.error (sl, .NOMEM), s)) ∧
    (∀ an sl, okToUse s p = true →
      allow_readwrite s p an sl =
        dispatchAllow { s with appid := some p } p an sl) := by
  refine ⟨?_, fun n ch f hw h => by simp [command, h],
    fun n ch f hw h => by simp [command, h],
    fun an sl h => by simp [allow_readwrite, h],
    fun an sl h => by simp [allow_readwrite, h]⟩
  unfold okToUse
  cases hid : s.appid with
  | none => simp
  | some q =>
    cases hact : s.active with
    | true =>
      cases happs : s.apps q <;> simp [happs, beq_iff_eq]
    | false =>
      cases happs : s.apps q <;> simp [happs, beq_iff_eq]

theorem ownership_guard_witness :
    command (splitTestState 256) 0 0 0 1 ⟨none, none, .ok (none, none)⟩ =
      (.failure .NOMEM, splitTestState 256) ∧
    command (splitTestState 256) 0 0 0 0 ⟨none, none, .ok (none, none)⟩ =
      dispatchCommand { splitTestState 256 with appid := some 0 } 0 0 0
        ⟨none, none, .ok (none, none)⟩ :=
  ⟨(ownership_guard (splitTestState 256) 1).2.1 0 0 0 _ rfl,
    (ownership_guard (splitTestState 256) 0).2.2.1 0 0 0 _ rfl⟩

theorem sample_buffer_fail_unwinds (s : DedState) (channel frequency : Nat)
    (hwRes : Option ErrorCode) (id : Nat) (app0 : App)
    (hactive : s.active = false) (hch : channel < s.numChannels)
    (hid : s.appid = some id) (happ : s.apps id = some app0)
    (hlen : app0.app_buf1.len ≠ 0)
    (hshape : s.pool.shaped)
    (hfail : hwRes ≠ none ∨ s.pool.adc_buf1 = none) :
    (∃ e, (sample_buffer s channel frequency hwRes).1 = .error e) ∧
      unwound s (sample_buffer s channel frequency hwRes).2 id := by
  have hch' : ¬ s.numChannels ≤ channel := Nat.not_le.mpr hch
  rcases hp : s.pool with ⟨b1, b2, b3⟩
  rw [hp] at hshape hfail
  cases hwRes with
  | none =>
    rcases hfail with h | hb1
    · exact absurd rfl h
    · simp only at hb1
      subst hb1
      constructor
      · exact ⟨.BUSY, by
          simp [sample_buffer, bufferStartFail, hactive, hch', hid, happ, hlen, hp]⟩
      · simp [sample_buffer, bufferStartFail, unwound, updGrant, hactive, hch',
          hid, happ, hlen, hp, Pool.count]
  | some e =>
    cases b1 with
    | none =>
      constructor
      · exact ⟨.BUSY, by
          simp [sample_buffer, bufferStartFail, hactive, hch', hid, happ, hlen, hp]⟩
      · simp [sample_buffer, bufferStartFail, unwound, updGrant, hactive, hch',
          hid, happ, hlen, hp, Pool.count]
    | some c1 =>
      have h2 : b2.isSome := hshape.1 (by simp)
      cases b2 with
      | none => simp at h2
      | some c2 =>
        cases b3 with
        | none =>
          constructor
          · exact ⟨e, by
              simp [sample_buffer, bufferStartFail, Pool.replace_buffer,
                hactive, hch', hid, happ, hlen, hp]⟩
          · simp [sample_buffer, bufferStartFail, unwound, updGrant,
              Pool.replace_buffer, hactive, hch', hid, happ, hlen, hp, Pool.count]
        | some c3 =>
          constructor
          · exact ⟨e, by
              simp [sample_buffer, bufferStartFail, Pool.replace_buffer,
                hactive, hch', hid, happ, hlen, hp]⟩
          · simp [sample_buffer, bufferStartFail, unwound, updGrant,
              Pool.replace_buffer, hactive, hch', hid, happ, hlen, hp, Pool.count]


theorem sample_buffer_continuous_fail_unwinds (s : DedState)
    (channel frequency : Nat) (hwRes : Option ErrorCode) (id : Nat)
    (app0 : App)
    (hactive : s.active = false) (hch : channel < s.numChannels)
    (hid : s.appid = some id) (happ : s.apps id = some app0)
    (hlen1 : app0.app_buf1.len ≠ 0) (hlen2 : app0.app_buf2.len ≠ 0)
    (hshape : s.pool.shaped)
    (hfail : hwRes ≠ none ∨ s.pool.adc_buf1 = none) :
    (∃ e, (sample_buffer_continuous s channel frequency hwRes).1 = .error e) ∧
      unwound s (sample_buffer_continuous s channel frequency hwRes).2 id := by
  have hch2 : ¬ s.numChannels ≤ channel := Nat.not_le.mpr hch
  rcases hp : s.pool with ⟨b1, b2, b3⟩
  rw [hp] at hshape hfail
  cases hwRes with
  | none =>
    rcases hfail with h | hb1
    · exact absurd rfl h
    · simp only at hb1
      subst hb1
      constructor
      · exact ⟨.BUSY, by
          simp [sample_buffer_continuous, bufferStartFail, hactive, hch2, hid,
            happ, hlen1, hlen2, hp]⟩
      · simp [sample_buffer_continuous, bufferStartFail, unwound, hactive,
          hch2, hid, happ, hlen1, hlen2, hp, Pool.count]
  | some e =>
    cases b1 with
    | none =>
      constructor
      · exact ⟨.BUSY, by
          simp [sample_buffer_continuous, bufferStartFail, hactive, hch2, hid,
            happ, hlen1, hlen2, hp]⟩
      · simp [sample_buffer_continuous, bufferStartFail, unwound, hactive,
          hch2, hid, happ, hlen1, hlen2, hp, Pool.count]
    | some c1 =>
      have h2 : b2.isSome := hshape.1 (by simp)
      cases b2 with
      | none => simp at h2
      | some c2 =>
        cases b3 with
        | none =>
          constructor
          · exact ⟨e, by
              simp [sample_buffer_continuous, bufferStartFail,
                Pool.replace_buffer, hactive, hch2, hid, happ, hlen1, hlen2, hp]⟩
          · simp [sample_buffer_continuous, bufferStartFail, unwound,
              Pool.replace_buffer, hactive, hch2, hid, happ, hlen1, hlen2, hp,
              Pool.count]
        | some c3 =>
          constructor
          · exact ⟨e, by
              simp [sample_buffer_continuous, bufferStartFail,
                Pool.replace_buffer, hactive, hch2, hid, happ, hlen1, hlen2, hp]⟩
          · simp [sample_buffer_continuous, bufferStartFail, unwound,
              Pool.replace_buffer, hactive, hch2, hid, happ, hlen1, hlen2, hp,
              Pool.count]

/-- C2: every failed attempt to start a buffered sample (`sample_buffer`) or
continuous buffered sample (`sample_buffer_continuous`) — whether a kernel
pool slot is missing or the hardware rejects the high-speed request —
deposits every slot withdrawn during the attempt back into the pool, reverts
the mode to idle, resets `samples_remaining` and `samples_outstanding` to
zero, and returns the error. -/
theorem failed_buffer_start_unwinds (s : DedState) (channel frequency : Nat)
    (hwRes : Option ErrorCode) (id : Nat) (app0 : App)
    (hactive : s.active = false) (hch : channel < s.numChannels)
    (hid : s.appid = some id) (happ : s.apps id = some app0)
    (hshape : s.pool.shaped)
    (hfail : hwRes ≠ none ∨ s.pool.adc_buf1 = none) :
    (app0.app_buf1.len ≠ 0 →
      (∃ e, (sample_buffer s channel frequency hwRes).1 = .error e) ∧
        unwound s (sample_buffer s channel frequency hwRes).2 id) ∧
    (app0.app_buf1.len ≠ 0 → app0.app_buf2.len ≠ 0 →
      (∃ e,
        (sample_buffer_continuous s channel frequency hwRes).1 = .error e) ∧
        unwound s (sample_buffer_continuous s channel frequency hwRes).2 id) :=
  ⟨fun h1 => sample_buffer_fail_unwinds s channel frequency hwRes id app0
      hactive hch hid happ h1 hshape hfail,
    fun h1 h2 => sample_buffer_continuous_fail_unwinds s channel frequency
      hwRes id app0 hactive hch hid happ h1 h2 hshape hfail⟩

theorem failed_buffer_start_unwinds_witness :
    (∃ e, (sample_buffer (splitTestState 256) 2 175000
      (some .OFF)).1 = .error e) ∧
      unwound (splitTestState 256)
        (sample_buffer (splitTestState 256) 2 175000 (some .OFF)).2 0 :=
  (failed_buffer_start_unwinds (splitTestState 256) 2 175000 (some .OFF) 0 _
      rfl (by decide) rfl rfl (by decide) (Or.inl (by simp))).1 (by decide)

/-- C9: a buffer-registration call (`allow_readwrite` 0 or 1) whose grant
entry fails returns the buffer handle just passed in, unchanged, together
with the error (and forgets the owner); on success the previously registered
handle for that slot is returned and the new handle stored; any other allow
number fails `NOSUPPORT`, returning the passed-in handle. -/
theorem allow_swap_behavior (s : DedState) (p an : Nat) (sl : AppBuffer)
    (hok : okToUse s p = true) :
    (s.apps p = none → an = 0 ∨ an = 1 →
      allow_readwrite s p an sl =
        (.error (sl, grantErrorCode), { s with appid := none })) ∧
    (∀ app, s.apps p = some app → an = 0 →
      allow_readwrite s p an sl =
        (.ok app.app_buf1,
          { s with
            appid := some p,
            apps := updGrant s.apps p { app with app_buf1 := sl } })) ∧
    (∀ app, s.apps p = some app → an = 1 →
      allow_readwrite s p an sl =
        (.ok app.app_buf2,
          { s with
            appid := some p,
            apps := updGrant s.apps p { app with app_buf2 := sl } })) ∧
    (2 ≤ an →
      allow_readwrite s p an sl =
        (.error (sl, .NOSUPPORT), { s with appid := some p })) := by
  refine ⟨fun hnone han => ?_, fun app happ han => ?_, fun app happ han => ?_,
    fun han => ?_⟩
  · rcases han with rfl | rfl <;>
      simp [allow_readwrite, dispatchAllow, hok, hnone]
  · subst han; simp [allow_readwrite, dispatchAllow, hok, happ]
  · subst han; simp [allow_readwrite, dispatchAllow, hok, happ]
  · obtain ⟨m, rfl⟩ : ∃ m, an = m + 2 := ⟨an - 2, by omega⟩
    simp [allow_readwrite, dispatchAllow, hok]

theorem allow_swap_behavior_witness :
    allow_readwrite (splitTestState 256) 0 0 ⟨500, 64⟩ =
      (.ok ⟨4096, 256⟩,
        { splitTestState 256 with
          appid := some 0,
          apps := updGrant (splitTestState 256).apps 0
            { App.default with
              app_buf1 := ⟨500, 64⟩, app_buf2 := ⟨8192, 300⟩ } }) :=
  (allow_swap_behavior (splitTestState 256) 0 0 ⟨500, 64⟩ rfl).2.1 _ rfl rfl

/-- C8: `enqueue_command` with an in-range channel: with no request in
flight the caller becomes the in-flight owner and the sample is dispatched
immediately (the binding being cleared again if the dispatch fails); with a
request in flight, a caller that already has a pending request fails `BUSY`,
and a caller without one gets exactly one pending request (flag, command and
channel) recorded; an out-of-range channel fails `NODEVICE`. -/
theorem enqueue_command_behavior (s : VirtState) (cmd : Operation)
    (channel p : Nat) (hwRes : Option ErrorCode) :
    (s.numDrivers ≤ channel →
      AdcVirtualized.enqueue_command s cmd channel p hwRes =
        (.error .NODEVICE, s)) ∧
    (∀ app, s.apps p = some app → channel < s.numDrivers →
      (s.current_app = none → hwRes = none →
        AdcVirtualized.enqueue_command s cmd channel p hwRes =
          (.ok (), { s with current_app := some p })) ∧
      (∀ e, s.current_app = none → hwRes = some e →
        AdcVirtualized.enqueue_command s cmd channel p hwRes =
          (.error e, { s with current_app := none })) ∧
      (∀ q, s.current_app = some q → app.pending_command = true →
        AdcVirtualized.enqueue_command s cmd channel p hwRes =
          (.error .BUSY, s)) ∧
      (∀ q, s.current_app = some q → app.pending_command = false →
        AdcVirtualized.enqueue_command s cmd channel p hwRes =
          (.ok (),
            { s with
              apps := updGrant s.apps p ⟨true, some cmd, channel⟩ }))) := by
  refine ⟨fun hch => ?_, fun app happ hch => ?_⟩
  · have h : ¬ channel < s.numDrivers := Nat.not_lt.mpr hch
    simp [AdcVirtualized.enqueue_command, h]
  · refine ⟨fun hcur hhw => ?_, fun e hcur hhw => ?_,
      fun q hcur hpend => ?_, fun q hcur hpend => ?_⟩
    · simp [AdcVirtualized.enqueue_command, hch, happ, hcur, hhw]
    · simp [AdcVirtualized.enqueue_command, hch, happ, hcur, hhw]
    · simp [AdcVirtualized.enqueue_command, hch, happ, hcur, hpend]
    · simp [AdcVirtualized.enqueue_command, hch, happ, hcur, hpend]

theorem enqueue_command_behavior_witness :
    AdcVirtualized.enqueue_command virtTestState .OneSample 2 1 none =
      (.ok (),
        { virtTestState with
          apps := updGrant virtTestState.apps 1 ⟨true, some .OneSample, 2⟩ }) :=
  ((enqueue_command_behavior virtTestState .OneSample 2 1 none).2 _
    rfl (by decide)).2.2.2 0 rfl rfl

/-- C10: when the virtualized completion callback fires with an in-flight
owner whose grant is enterable, it unbinds the owner, resets that owner's
`pending_command` flag (leaving its queued command cell and channel in
place, never to be dispatched), delivers exactly one mode-tag-0 upcall to
that owner, and leaves every other process's queued request untouched and
undispatched. -/
theorem virt_sample_ready_behavior (s : VirtState) (sample : Nat)
    (owner : Nat) (app : AppSys)
    (hcur : s.current_app = some owner) (happ : s.apps owner = some app) :
    (AdcVirtualized.sample_ready s sample).1.current_app = none ∧
    (AdcVirtualized.sample_ready s sample).1.apps owner =
      some { app with pending_command := false } ∧
    (∀ q, q ≠ owner →
      (AdcVirtualized.sample_ready s sample).1.apps q = s.apps q) ∧
    (AdcVirtualized.sample_ready s sample).2 =
      some (owner, ⟨0, app.channel, sample⟩) := by
  refine ⟨?_, ?_, fun q hq => ?_, ?_⟩
  · simp [AdcVirtualized.sample_ready, hcur, happ]
  · simp [AdcVirtualized.sample_ready, hcur, happ]
  · simp [AdcVirtualized.sample_ready, hcur, happ, hq]
  · simp [AdcVirtualized.sample_ready, hcur, happ, AdcMode.tag, AdcMode.discr]

theorem virt_sample_ready_behavior_witness :
    (AdcVirtualized.sample_ready virtTestState 99).1.current_app = none ∧
    (AdcVirtualized.sample_ready virtTestState 99).1.apps 0 =
      some { pending_command := false, command := some .OneSample,
             channel := 1 } ∧
    (AdcVirtualized.sample_ready virtTestState 99).1.apps 1 =
      virtTestState.apps 1 ∧
    (AdcVirtualized.sample_ready virtTestState 99).2 =
      some (0, ⟨0, 1, 99⟩) :=
  ⟨(virt_sample_ready_behavior virtTestState 99 0 _ rfl rfl).1,
    (virt_sample_ready_behavior virtTestState 99 0 _ rfl rfl).2.1,
    (virt_sample_ready_behavior virtTestState 99 0 _ rfl rfl).2.2.1 1
      (by decide),
    (virt_sample_ready_behavior virtTestState 99 0 _ rfl rfl).2.2.2⟩

theorem unexpectedCleanup_no_upcall (s : DedState)
    (rr : Except ErrorCode (Option KBuf × Option KBuf)) :
    (unexpectedCleanup s rr).2 = none := by
  unfold unexpectedCleanup
  rcases rr with e | ⟨b1, b2⟩ <;> simp

theorem samples_ready_requests_bufs (mode : AdcMode) (pool : Pool)
    (app : App) (r n : AppBuffer) (pk : Bool) :
    (samples_ready_requests mode pool app r n pk).1.app_buf1 = app.app_buf1 ∧
    (samples_ready_requests mode pool app r n pk).1.app_buf2 = app.app_buf2 := by
  rcases htm : pool.take_and_map_buffer with ⟨ob, pl⟩
  simp only [samples_ready_requests, htm]
  by_cases h1 : app.samples_remaining = 0 <;>
    by_cases h2 : app.samples_outstanding = 0 <;>
    by_cases h3 : mode = AdcMode.ContinuousBuffer <;>
    by_cases h4 : n.len / 2 - app.next_samples_outstanding = 0 <;>
    cases ob <;> cases pk <;>
    simp [h1, h2, h3, h4]

theorem samples_ready_requests_buf1 (mode : AdcMode) (pool : Pool)
    (app : App) (r n : AppBuffer) (pk : Bool) :
    (samples_ready_requests mode pool app r n pk).1.app_buf1 =
      app.app_buf1 :=
  (samples_ready_requests_bufs mode pool app r n pk).1

theorem samples_ready_requests_buf2 (mode : AdcMode) (pool : Pool)
    (app : App) (r n : AppBuffer) (pk : Bool) :
    (samples_ready_requests mode pool app r n pk).1.app_buf2 =
      app.app_buf2 :=
  (samples_ready_requests_bufs mode pool app r n pk).2

theorem sample_ready_payload (s : DedState) (sample : Nat) (u : Upcall)
    (h : (sample_ready s sample).2 = some u) :
    (s.mode = AdcMode.SingleSample ∧ u = ⟨0, s.channel, sample⟩) ∨
    (s.mode = AdcMode.ContinuousSample ∧ u = ⟨1, s.channel, sample⟩) := by
  unfold sample_ready at h
  by_cases h1 : s.active = true ∧ s.mode = AdcMode.SingleSample
  · rw [if_pos h1] at h
    cases hid : s.appid with
    | none => simp [hid] at h
    | some id =>
      cases happ : s.apps id with
      | none => simp [hid, happ] at h
      | some a =>
        simp [hid, happ, AdcMode.tag, AdcMode.discr] at h
        exact Or.inl ⟨h1.2, by simp_all⟩
  · rw [if_neg h1] at h
    by_cases h2 : s.active = true ∧ s.mode = AdcMode.ContinuousSample
    · rw [if_pos h2] at h
      cases hid : s.appid with
      | none => simp [hid] at h
      | some id =>
        cases happ : s.apps id with
        | none => simp [hid, happ] at h
        | some a =>
          simp [hid, happ, AdcMode.tag, AdcMode.discr] at h
          exact Or.inr ⟨h2.2, by simp_all⟩
    · rw [if_neg h2] at h
      simp at h

theorem samples_ready_payload (s : DedState) (buf : KBuf) (length : Nat)
    (pk : Bool) (rr : Except ErrorCode (Option KBuf × Option KBuf))
    (u : Upcall) (h : (samples_ready s buf length pk rr).2 = some u) :
    ∃ id app, s.appid = some id ∧ s.apps id = some app ∧
      ((s.mode = AdcMode.SingleBuffer ∧ u.tag = 2) ∨
        (s.mode = AdcMode.ContinuousBuffer ∧ u.tag = 3)) ∧
      u.arg2 = (((if app.using_app_buf1 then app.app_buf1.len
          else app.app_buf2.len) / 2) <<< 8) ||| (s.channel &&& 0xFF) ∧
      u.arg3 = (if app.using_app_buf1 then app.app_buf1.ptr
          else app.app_buf2.ptr) := by
  simp only [samples_ready] at h
  split at h
  case isFalse hg =>
    rw [unexpectedCleanup_no_upcall] at h
    exact absurd h (by simp)
  case isTrue hg =>
    cases hid : s.appid with
    | none => simp only [hid] at h; exact absurd h (by simp)
    | some id =>
      simp only [hid] at h
      cases happ : s.apps id with
      | none =>
        simp only [happ, unexpectedCleanup_no_upcall] at h
        exact absurd h (by simp)
      | some app0 =>
        simp only [happ] at h
        refine ⟨id, app0, rfl, happ, ?_⟩
        cases hu : app0.using_app_buf1 <;> simp only [hu, Bool.false_eq_true,
            if_true, if_false, ite_true, ite_false] at h <;>
          [skip; skip] <;>
          · split at h
            case isFalse hpc => exact absurd h (by simp)
            case isTrue hpc =>
              split at h
              case isTrue hm =>
                rcases rr with e | ⟨b1, b2⟩ <;>
                  · simp only [] at h
                    rw [Option.some.injEq] at h
                    subst h
                    exact ⟨Or.inl ⟨hm, by
                        simp [hm, AdcMode.tag, AdcMode.discr]⟩,
                      by simp [hu, samples_ready_requests_buf1,
                        samples_ready_requests_buf2],
                      by simp [hu, samples_ready_requests_buf1,
                        samples_ready_requests_buf2]⟩
              case isFalse hm =>
                rcases hg.2 with hsb | hcb
                · exact absurd hsb hm
                · rw [Option.some.injEq] at h
                  subst h
                  exact ⟨Or.inr ⟨hcb, by
                      simp [hcb, AdcMode.tag, AdcMode.discr]⟩,
                    by simp [hu, samples_ready_requests_buf1,
                      samples_ready_requests_buf2],
                    by simp [hu, samples_ready_requests_buf1,
                      samples_ready_requests_buf2]⟩

theorem virt_sample_ready_payload (sv : VirtState) (sample p : Nat)
    (u : Upcall)
    (h : (AdcVirtualized.sample_ready sv sample).2 = some (p, u)) :
    ∃ app, sv.apps p = some app ∧ u = ⟨0, app.channel, sample⟩ := by
  unfold AdcVirtualized.sample_ready at h
  cases hcur : sv.current_app with
  | none => simp [hcur] at h
  | some q =>
    simp only [hcur] at h
    cases happ : sv.apps q with
    | none => simp [happ] at h
    | some app =>
      simp only [happ] at h
      simp [AdcMode.tag, AdcMode.discr] at h
      obtain ⟨rfl, rfl⟩ := h
      exact ⟨app, happ, rfl⟩

/-- C7: every upcall delivered by the driver carries `(mode_tag, arg2,
arg3)`: for the scalar modes `arg2` is the channel index and `arg3` the raw
sample; for the buffered modes `arg2` is
`((caller_buffer_byte_length / 2) << 8) | (channel & 0xFF)` and `arg3` the
caller buffer address; the mode tags are 0 (single sample), 1 (continuous
sample), 2 (single buffer), 3 (continuous buffer). -/
theorem upcall_payloads :
    (∀ s sample u, (sample_ready s sample).2 = some u →
      (s.mode = AdcMode.SingleSample ∧ u = ⟨0, s.channel, sample⟩) ∨
      (s.mode = AdcMode.ContinuousSample ∧ u = ⟨1, s.channel, sample⟩)) ∧
    (∀ s buf length pk rr u,
      (samples_ready s buf length pk rr).2 = some u →
      ∃ id app, s.appid = some id ∧ s.apps id = some app ∧
        ((s.mode = AdcMode.SingleBuffer ∧ u.tag = 2) ∨
          (s.mode = AdcMode.ContinuousBuffer ∧ u.tag = 3)) ∧
        u.arg2 = (((if app.using_app_buf1 then app.app_buf1.len
            else app.app_buf2.len) / 2) <<< 8) ||| (s.channel &&& 0xFF) ∧
        u.arg3 = (if app.using_app_buf1 then app.app_buf1.ptr
            else app.app_buf2.ptr)) ∧
    (AdcMode.SingleSample.tag = 0 ∧ AdcMode.ContinuousSample.tag = 1 ∧
      AdcMode.SingleBuffer.tag = 2 ∧ AdcMode.ContinuousBuffer.tag = 3) ∧
    (∀ sv sample p u,
      (AdcVirtualized.sample_ready sv sample).2 = some (p, u) →
      ∃ app, sv.apps p = some app ∧ u = ⟨0, app.channel, sample⟩) :=
  ⟨fun s sample u h => sample_ready_payload s sample u h,
    fun s buf length pk rr u h => samples_ready_payload s buf length pk rr u h,
    ⟨rfl, rfl, rfl, rfl⟩,
    fun sv sample p u h => virt_sample_ready_payload sv sample p u h⟩

theorem upcall_payloads_witness :
    ((scalarUpcallState.mode = AdcMode.SingleSample ∧
        (⟨0, 3, 77⟩ : Upcall) = ⟨0, scalarUpcallState.channel, 77⟩) ∨
      (scalarUpcallState.mode = AdcMode.ContinuousSample ∧
        (⟨0, 3, 77⟩ : Upcall) = ⟨1, scalarUpcallState.channel, 77⟩)) ∧
    (∃ id app, bufferUpcallState.appid = some id ∧
      bufferUpcallState.apps id = some app ∧
      ((bufferUpcallState.mode = AdcMode.SingleBuffer ∧
          (2 : Nat) = 2) ∨
        (bufferUpcallState.mode = AdcMode.ContinuousBuffer ∧
          (2 : Nat) = 3)) ∧
      (32771 : Nat) = (((if app.using_app_buf1 then app.app_buf1.len
          else app.app_buf2.len) / 2) <<< 8) |||
        (bufferUpcallState.channel &&& 0xFF) ∧
      (4096 : Nat) = (if app.using_app_buf1 then app.app_buf1.ptr
          else app.app_buf2.ptr)) :=
  ⟨upcall_payloads.1 scalarUpcallState 77 ⟨0, 3, 77⟩ rfl,
    upcall_payloads.2.1 bufferUpcallState 128 128 true (.ok (some 128, none))
      ⟨2, 32771, 4096⟩ rfl⟩

end Tock
